import Mathlib

/-!
# Verification development for the fitness-bot repository

Shallow embedding of `fitness_bot_full_for_user.py` and proofs about it.

Conventions of the embedding:
* Python `datetime.date` values are modelled by their proleptic Gregorian
  ordinal (`date.toordinal()`), a natural number for plan generation and an
  integer where arithmetic with possibly-negative day offsets occurs.
  Since ordinal 1 is a Monday, `date.weekday()` is `(ordinal - 1) % 7`,
  written totally as `(ordinal + 6) % 7` (Monday = 0, ..., Sunday = 6).
* Python floats are modelled exactly as rationals; `round(x, 1)` is
  rounding to the nearest multiple of one tenth.
* The SQLite tables touched by the properties below (`users`, `steps`,
  `goals`, `integrations`) are modelled as lists of row records; table
  iteration order is insertion order, matching SQLite's behaviour on these
  rowid tables.  `INSERT OR REPLACE` deletes every row with the conflicting
  primary key and appends a fresh row in which every column absent from the
  statement's column list takes its schema default.
* `int(...)`/`float(...)` argument parsing is abstracted by a parse
  function passed explicitly (`pi`/`pf`); a `none` result models the
  `ValueError` branch of the corresponding `try`/`except`.
-/

/-- `date.weekday()` of an ordinal day number: Monday = 0, ..., Sunday = 6. -/
def weekday (o : Nat) : Nat := (o + 6) % 7

/-- `STRENGTH_SPLITS`: the three hand-authored strength splits. -/
def STRENGTH_SPLITS : List (String × List (String × Nat × Nat)) :=
  [("A", [("Squat", 3, 5), ("Bench Press", 3, 5), ("Bent-over Row", 3, 8), ("Plank", 3, 60)]),
   ("B", [("Deadlift", 3, 5), ("Overhead Press", 3, 5), ("Lat Pulldown / Pull-ups", 3, 8),
          ("Hanging Knee Raise", 3, 12)]),
   ("C", [("Front Squat / Lunge", 3, 8), ("Incline Bench / DB Press", 3, 8),
          ("Seated Row", 3, 10), ("Back Extension", 3, 12)])]

/-- `CARDIO_MENU`: the six hand-authored cardio menu items with base minutes. -/
def CARDIO_MENU : List (String × Nat) :=
  [("Easy Run / Jog", 60), ("Rowing Erg", 60), ("Cycling (Z2)", 75), ("HIIT Intervals", 30),
   ("Stair Climber", 60), ("Elliptical", 60)]

/-- The local `cycle = ['A', 'B', 'C']` of `make_30day_plan`. -/
def cycleNames : List String := ["A", "B", "C"]

/-- One `(date, wtype, name)` tuple of the plan returned by `make_30day_plan`. -/
structure PlanEntry where
  pdate : Nat
  wtype : String
  sname : String
deriving DecidableEq, Repr

/-- The loop body of `make_30day_plan`: `fuel` counts the remaining iterations of
`for i in range(30)`, `i` is the current loop index, `si`/`ci` the split and
cardio counters. -/
def planAux (start : Nat) : Nat → Nat → Nat → Nat → List PlanEntry
  | 0, _, _, _ => []
  | fuel + 1, i, si, ci =>
    let d := start + i
    let wd := weekday d
    if wd = 6 then
      planAux start fuel (i + 1) si ci
    else if wd = 0 ∨ wd = 2 ∨ wd = 4 then
      { pdate := d, wtype := "strength", sname := "Strength " ++ cycleNames.getD si "" } ::
        planAux start fuel (i + 1) ((si + 1) % 3) ci
    else
      { pdate := d, wtype := "cardio",
        sname := "Cardio: " ++ (CARDIO_MENU.getD (ci % CARDIO_MENU.length) ("", 0)).1 } ::
        planAux start fuel (i + 1) si (ci + 1)

/-- `make_30day_plan(start)`: iterate the loop body 30 times from `i = 0`,
`si = 0`, `ci = 0`. -/
def make_30day_plan (start : Nat) : List PlanEntry := planAux start 30 0 0 0

/-- `progression`'s rounding: `round(x, 1)` on exact rationals. -/
def roundTo1 (x : ℚ) : ℚ := ((round (10 * x) : ℤ) : ℚ) / 10

/-- `progression(base, weeks, percent) = round(base * ((1 + percent / 100) ** weeks), 1)`. -/
def progression (base : ℚ) (weeks : Nat) (percent : ℚ) : ℚ :=
  roundTo1 (base * ((1 + percent / 100) ^ weeks))

/-- Shifting a plan entry by `k` days. -/
def shiftEntry (k : Nat) (e : PlanEntry) : PlanEntry := { e with pdate := e.pdate + k }

/-- The weekday assignment is 7-periodic. -/
theorem weekday_add_seven (n : Nat) : weekday (n + 7) = weekday n := by
  unfold weekday
  omega

/-- The plan loop body commutes with shifting the start date by one week. -/
theorem planAux_shift (start fuel : Nat) : ∀ i si ci,
    planAux (start + 7) fuel i si ci = (planAux start fuel i si ci).map (shiftEntry 7) := by
  induction fuel with
  | zero => intro i si ci; rfl
  | succ fuel ih =>
    intro i si ci
    have hd : start + 7 + i = (start + i) + 7 := by omega
    have hw : weekday (start + i + 7) = weekday (start + i) := weekday_add_seven (start + i)
    simp only [planAux, hd, hw]
    by_cases h6 : weekday (start + i) = 6
    · simp [h6, ih]
    · by_cases hs : weekday (start + i) = 0 ∨ weekday (start + i) = 2 ∨ weekday (start + i) = 4
      · simp [h6, hs, ih, shiftEntry]
      · simp [h6, hs, ih, shiftEntry]

/-- `make_30day_plan` commutes with shifting the start date by one week. -/
theorem make_30day_plan_shift (start : Nat) :
    make_30day_plan (start + 7) = (make_30day_plan start).map (shiftEntry 7) := by
  unfold make_30day_plan
  exact planAux_shift start 30 0 0 0

/-- Monday, Wednesday or Friday. -/
def strengthDay (wd : Nat) : Prop := wd = 0 ∨ wd = 2 ∨ wd = 4

/-- Tuesday, Thursday or Saturday. -/
def cardioDay (wd : Nat) : Prop := wd = 1 ∨ wd = 3 ∨ wd = 5

instance (wd : Nat) : Decidable (strengthDay wd) := by unfold strengthDay; infer_instance

instance (wd : Nat) : Decidable (cardioDay wd) := by unfold cardioDay; infer_instance

/-- The calendar property of a 30-day plan: every entry lies in the 30-day
window, never on a Sunday, its type is strength exactly on Mon/Wed/Fri and
cardio exactly on Tue/Thu/Sat; every non-Sunday day of the window is covered;
and the dates are strictly increasing. -/
def planCalendarSpec (start : Nat) (pl : List PlanEntry) : Prop :=
  (∀ e ∈ pl, start ≤ e.pdate ∧ e.pdate ≤ start + 29 ∧ weekday e.pdate ≠ 6 ∧
     (e.wtype = "strength" ↔ strengthDay (weekday e.pdate)) ∧
     (e.wtype = "cardio" ↔ cardioDay (weekday e.pdate))) ∧
  (∀ i < 30, weekday (start + i) ≠ 6 → ∃ e ∈ pl, e.pdate = start + i) ∧
  pl.Pairwise (fun a b => a.pdate < b.pdate)

/-- The calendar property is stable under shifting the plan by one week. -/
theorem planCalendarSpec_shift (start : Nat) (pl : List PlanEntry)
    (h : planCalendarSpec start pl) :
    planCalendarSpec (start + 7) (pl.map (shiftEntry 7)) := by
  obtain ⟨hmem, hcov, hsort⟩ := h
  refine ⟨?_, ?_, ?_⟩
  · intro e he
    rw [List.mem_map] at he
    obtain ⟨e', he', rfl⟩ := he
    obtain ⟨h1, h2, h3, h4, h5⟩ := hmem e' he'
    refine ⟨by simp [shiftEntry]; omega, by simp [shiftEntry]; omega, ?_, ?_, ?_⟩
    · simpa [shiftEntry, weekday_add_seven] using h3
    · simpa [shiftEntry, weekday_add_seven] using h4
    · simpa [shiftEntry, weekday_add_seven] using h5
  · intro i hi hs
    have hs' : weekday (start + i) ≠ 6 := by
      have : start + 7 + i = (start + i) + 7 := by omega
      rw [this, weekday_add_seven] at hs
      exact hs
    obtain ⟨e, he, hee⟩ := hcov i hi hs'
    exact ⟨shiftEntry 7 e, List.mem_map_of_mem _ he, by simp [shiftEntry, hee]; omega⟩
  · refine List.Pairwise.map _ ?_ hsort
    intro a b hab
    simpa [shiftEntry] using Nat.add_lt_add_right hab 7

instance (start : Nat) (pl : List PlanEntry) : Decidable (planCalendarSpec start pl) := by
  unfold planCalendarSpec
  infer_instance

/-- The calendar property holds for every start date of the form `7 * q + r`. -/
theorem planCalendarSpec_base (r q : Nat) (hr : r < 7) :
    planCalendarSpec (7 * q + r) (make_30day_plan (7 * q + r)) := by
  induction q with
  | zero =>
    simp only [Nat.mul_zero, Nat.zero_add]
    interval_cases r <;> decide
  | succ q ih =>
    have h : 7 * (q + 1) + r = (7 * q + r) + 7 := by ring
    rw [h, make_30day_plan_shift]
    exact planCalendarSpec_shift _ _ ih

/-- C2: for every start date, `make_30day_plan` returns a calendar covering
exactly the 30 days from the start date: every entry's date lies in
`[start, start + 29]`, no entry falls on a Sunday, the type is `"strength"`
exactly on Monday/Wednesday/Friday and `"cardio"` exactly on
Tuesday/Thursday/Saturday, every non-Sunday day of the window is covered, and
the dates are strictly increasing. -/
theorem make_30day_plan_calendar (start : Nat) :
    planCalendarSpec start (make_30day_plan start) := by
  have h := planCalendarSpec_base (start % 7) (start / 7) (Nat.mod_lt start (by norm_num))
  rwa [Nat.div_add_mod] at h

/-- Weekday determines the session type of a plan entry, and for strength
entries also the split name. -/
def planWeekdaySpec (pl : List PlanEntry) : Prop :=
  ∀ e1 ∈ pl, ∀ e2 ∈ pl, weekday e1.pdate = weekday e2.pdate →
    e1.wtype = e2.wtype ∧ (e1.wtype = "strength" → e1.sname = e2.sname)

instance (pl : List PlanEntry) : Decidable (planWeekdaySpec pl) := by
  unfold planWeekdaySpec
  infer_instance

/-- The weekday-determinacy property is stable under shifting by one week. -/
theorem planWeekdaySpec_shift (pl : List PlanEntry) (h : planWeekdaySpec pl) :
    planWeekdaySpec (pl.map (shiftEntry 7)) := by
  intro e1 he1 e2 he2 hw
  rw [List.mem_map] at he1 he2
  obtain ⟨f1, hf1, rfl⟩ := he1
  obtain ⟨f2, hf2, rfl⟩ := he2
  have hw' : weekday f1.pdate = weekday f2.pdate := by
    simpa [shiftEntry, weekday_add_seven] using hw
  simpa [shiftEntry] using h f1 hf1 f2 hf2 hw'

/-- Weekday determinacy holds for every start date of the form `7 * q + r`. -/
theorem planWeekdaySpec_base (r q : Nat) (hr : r < 7) :
    planWeekdaySpec (make_30day_plan (7 * q + r)) := by
  induction q with
  | zero =>
    simp only [Nat.mul_zero, Nat.zero_add]
    interval_cases r <;> decide
  | succ q ih =>
    have h : 7 * (q + 1) + r = (7 * q + r) + 7 := by ring
    rw [h, make_30day_plan_shift]
    exact planWeekdaySpec_shift _ ih

/-- C4 (amended): for every start date, the weekday of an entry determines its
session type, and for strength entries also the split name; cardio names are
not a function of the weekday alone. -/
theorem make_30day_plan_weekday_determined (start : Nat) :
    planWeekdaySpec (make_30day_plan start) := by
  have h := planWeekdaySpec_base (start % 7) (start / 7) (Nat.mod_lt start (by norm_num))
  rwa [Nat.div_add_mod] at h

/-- C4 (counterexample): starting on a Monday (ordinal 1), the two Tuesdays at
ordinals 2 and 9 both occur in the plan but carry different cardio session
names, so the assigned session name is not a function of the weekday alone. -/
theorem make_30day_plan_same_weekday_name_differs :
    ({ pdate := 2, wtype := "cardio", sname := "Cardio: Easy Run / Jog" } : PlanEntry)
      ∈ make_30day_plan 1 ∧
    ({ pdate := 9, wtype := "cardio", sname := "Cardio: HIIT Intervals" } : PlanEntry)
      ∈ make_30day_plan 1 ∧
    weekday 2 = weekday 9 ∧
    ("Cardio: Easy Run / Jog" : String) ≠ "Cardio: HIIT Intervals" := by
  refine ⟨by decide, by decide, by decide, by decide⟩

/-- The in-memory timer state: `USER_TIMER_TASKS` together with the set of
tasks on which `.cancel()` has been called.  An `asyncio.Task` is modelled by
a numeric identifier; each user's dictionary is an association list kept in
insertion order (Python dictionaries preserve insertion order and never hold
a key twice). -/
structure TimerSys where
  tasks : Int → List (String × Nat)
  cancelled : List Nat

/-- `start_user_timer(app, user_id, timer_name, seconds, finish_message)`:
refuse if the name is already registered for the user, otherwise create the
task (`tid` models the freshly created `asyncio.Task`) and register it. -/
def start_user_timer (st : TimerSys) (uid : Int) (tname : String) (tid : Nat) :
    TimerSys × Bool :=
  let user_tasks := st.tasks uid
  if (user_tasks.lookup tname).isSome then (st, false)
  else
    ({ st with tasks := fun u => if u = uid then user_tasks ++ [(tname, tid)] else st.tasks u },
     true)

/-- `stop_user_timer(user_id, timer_name)`: with a name, pop and cancel that
entry if present; with `None`, cancel and remove every timer of the user.
Returns the list of stopped names. -/
def stop_user_timer (st : TimerSys) (uid : Int) (tname : Option String) :
    TimerSys × List String :=
  let user_tasks := st.tasks uid
  match tname with
  | some n =>
    match user_tasks.lookup n with
    | some t =>
      ({ tasks := fun u => if u = uid then user_tasks.eraseP (fun p => p.1 == n) else st.tasks u,
         cancelled := t :: st.cancelled }, [n])
    | none => (st, [])
  | none =>
    ({ tasks := fun u => if u = uid then [] else st.tasks u,
       cancelled := user_tasks.map Prod.snd ++ st.cancelled },
     user_tasks.map Prod.fst)

/-- A key that is not among an association list's keys has no binding. -/
theorem lookup_eq_none_of_not_mem_keys (l : List (String × Nat)) (n : String)
    (h : n ∉ l.map Prod.fst) : l.lookup n = none := by
  rw [List.lookup_eq_none_iff]
  intro p hp
  simp only [bne_iff_ne, ne_eq]
  exact fun hn => h (hn ▸ List.mem_map_of_mem Prod.fst hp)

/-- Appending a fresh binding at the end of an association list makes it the
binding found for its key, provided the key was absent. -/
theorem lookup_append_fresh (l : List (String × Nat)) (n : String) (v : Nat)
    (h : l.lookup n = none) : (l ++ [(n, v)]).lookup n = some v := by
  rw [List.lookup_append, h, Option.none_or]
  exact List.lookup_cons_self

/-- After erasing the binding of a key from an association list with distinct
keys, the key has no binding left. -/
theorem lookup_eraseP_eq_none (l : List (String × Nat)) (n : String)
    (h : (l.map Prod.fst).Nodup) :
    (l.eraseP (fun p => p.1 == n)).lookup n = none := by
  induction l with
  | nil => rfl
  | cons hd tl ih =>
    simp only [List.map_cons, List.nodup_cons] at h
    by_cases hk : (hd.1 == n) = true
    · rw [List.eraseP_cons_of_pos (p := fun p => p.1 == n) (l := tl) hk]
      refine lookup_eq_none_of_not_mem_keys tl n ?_
      have hn : hd.1 = n := by simpa using hk
      exact hn ▸ h.1
    · rw [List.eraseP_cons_of_neg (p := fun p => p.1 == n) (l := tl) hk]
      obtain ⟨k, v⟩ := hd
      rw [List.lookup_cons]
      have hk' : (n == k) = false := by
        simp only [beq_eq_false_iff_ne, ne_eq]
        intro hn
        exact hk (by simp [hn])
      rw [hk']
      exact ih h.2

/-- A concrete timer state with one pending timer `"training"` for user 1. -/
def timerStateC1 : TimerSys :=
  { tasks := fun u => if u = 1 then [("training", 0)] else [], cancelled := [] }

/-- C1 (counterexample): with task 0 pending under `("training", user 1)`,
starting a new timer with the same name does not replace the stored task: the
table still holds task 0, not the new task 99, and the call reports `False`. -/
theorem start_user_timer_no_replace :
    (((start_user_timer timerStateC1 1 "training" 99).1.tasks 1).lookup "training" ≠ some 99) ∧
    ((start_user_timer timerStateC1 1 "training" 99).1.tasks 1).lookup "training" = some 0 ∧
    (start_user_timer timerStateC1 1 "training" 99).2 = false := by
  refine ⟨by decide, by decide, by decide⟩

/-- C1 (amended): per (user, name) the first pending registration wins:
`start_user_timer` on a name that already has a pending task leaves the state
unchanged and returns `False`; on a free name it registers the new task under
that name and returns `True`. -/
theorem start_user_timer_first_write_kept (st : TimerSys) (uid : Int) (tname : String)
    (tid : Nat) :
    (((st.tasks uid).lookup tname).isSome = true →
      start_user_timer st uid tname tid = (st, false)) ∧
    ((st.tasks uid).lookup tname = none →
      (start_user_timer st uid tname tid).2 = true ∧
      ((start_user_timer st uid tname tid).1.tasks uid).lookup tname = some tid) := by
  constructor
  · intro h
    simp [start_user_timer, h]
  · intro h
    refine ⟨by simp [start_user_timer, h], ?_⟩
    simp only [start_user_timer, h, Option.isSome_none, Bool.false_eq_true, if_false]
    exact lookup_append_fresh _ _ _ h

theorem start_user_timer_first_write_kept_witness :
    start_user_timer timerStateC1 1 "training" 99 = (timerStateC1, false) :=
  (start_user_timer_first_write_kept timerStateC1 1 "training" 99).1 (by decide)

/-- C6: stopping a named timer that is pending cancels exactly that task,
removes the name from the user's table, and returns `[name]`; stopping a name
with no pending timer changes nothing and returns a list not containing the
name. -/
theorem stop_user_timer_named_spec (st : TimerSys) (uid : Int) (n : String) (t : Nat)
    (hnodup : ((st.tasks uid).map Prod.fst).Nodup) :
    ((st.tasks uid).lookup n = some t →
      t ∈ (stop_user_timer st uid (some n)).1.cancelled ∧
      ((stop_user_timer st uid (some n)).1.tasks uid).lookup n = none ∧
      (stop_user_timer st uid (some n)).2 = [n]) ∧
    ((st.tasks uid).lookup n = none →
      stop_user_timer st uid (some n) = (st, []) ∧
      n ∉ (stop_user_timer st uid (some n)).2) := by
  constructor
  · intro h
    refine ⟨?_, ?_, ?_⟩
    · simp [stop_user_timer, h]
    · simp only [stop_user_timer, h]
      exact lookup_eraseP_eq_none _ _ hnodup
    · simp [stop_user_timer, h]
  · intro h
    have he : stop_user_timer st uid (some n) = (st, []) := by
      simp [stop_user_timer, h]
    exact ⟨he, by rw [he]; exact List.not_mem_nil n⟩

/-- A concrete timer state with one pending timer `"rest"` (task 5) for user 2. -/
def timerStateC6 : TimerSys :=
  { tasks := fun u => if u = 2 then [("rest", 5)] else [], cancelled := [] }

theorem stop_user_timer_named_spec_witness :
    5 ∈ (stop_user_timer timerStateC6 2 (some "rest")).1.cancelled ∧
    ((stop_user_timer timerStateC6 2 (some "rest")).1.tasks 2).lookup "rest" = none ∧
    (stop_user_timer timerStateC6 2 (some "rest")).2 = ["rest"] :=
  (stop_user_timer_named_spec timerStateC6 2 "rest" 5 (by decide)).1 (by decide)

/-- C3: `progression` applies the fixed-percentage weekly compounding
multiplier to the baseline and rounds to one decimal: it satisfies the closed
formula `round1(base * (1 + p/100)^weeks)`, compounds by the factor
`1 + p/100` for each further week inside the rounding, and at zero weeks
returns the baseline rounded to one decimal. -/
theorem progression_compounds (base : ℚ) (weeks : Nat) (p : ℚ) :
    progression base weeks p = roundTo1 (base * (1 + p / 100) ^ weeks) ∧
    progression base (weeks + 1) p =
      roundTo1 ((base * (1 + p / 100) ^ weeks) * (1 + p / 100)) ∧
    progression base 0 p = roundTo1 base := by
  refine ⟨rfl, ?_, ?_⟩
  · unfold progression
    rw [pow_succ, ← mul_assoc]
  · unfold progression
    rw [pow_zero, mul_one]

/-- A row of the `users` table. -/
structure UserRow where
  user_id : Int
  username : Option String
  age : Int
  gender : String
  tz_offset : Int
  frozen_until : Option Int
deriving DecidableEq, Repr

/-- A row of the `steps` table (primary key `(user_id, sdate)`). -/
structure StepsRow where
  user_id : Int
  sdate : Int
  steps : Int
deriving DecidableEq, Repr

/-- A row of the `goals` table (the AUTOINCREMENT `goal_id` is omitted: no
claim below inspects it). -/
structure GoalRow where
  user_id : Int
  goal_text : String
  target_value : ℚ
  target_date : String
  active : Int
deriving DecidableEq, Repr

/-- A row of the `integrations` table (primary key `(user_id, provider)`; the
never-written `config` column is omitted). -/
structure IntegrationRow where
  user_id : Int
  provider : String
  api_key : String
deriving DecidableEq, Repr

/-- The SQLite database restricted to the tables the claims below touch. -/
structure DB where
  users : List UserRow
  steps : List StepsRow
  goals : List GoalRow
  integrations : List IntegrationRow
deriving DecidableEq, Repr

/-- `log_steps(user_id, steps, sdate)`:
`INSERT OR REPLACE INTO steps(user_id,sdate,steps)` — delete every row with
the same `(user_id, sdate)` key, then append the fresh row. -/
def log_steps (st : DB) (uid : Int) (s : Int) (sdate : Int) : DB :=
  { st with steps :=
      st.steps.filter (fun r => !(r.user_id == uid && r.sdate == sdate)) ++
        [{ user_id := uid, sdate := sdate, steps := s }] }

/-- `cmd_sleep`: parse the hours argument and reply.  The handler body
performs no database access at all (the schema has no sleep table). -/
def cmd_sleep (pf : String → Option ℚ) (st : DB) (args : List String) : DB × String :=
  match args with
  | [] => (st, "Формат: /sleep hours")
  | a :: _ =>
    match pf a with
    | none => (st, "Неверный формат")
    | some h => (st, "Сон " ++ toString h ++ " ч сохранён (влияет на рекомендации)")

/-- `cmd_set_goal`: join the arguments with spaces, split on `'|'` into
exactly three fields, parse the middle field as a float, and only then insert
the goal row; any failure is caught and answered with an error reply (the
Python exception text is abstracted by a fixed suffix per failure kind). -/
def cmd_set_goal (pf : String → Option ℚ) (st : DB) (uid : Int) (args : List String) :
    DB × String :=
  match args with
  | [] => (st, "Формат: /set_goal text|target|YYYY-MM-DD")
  | _ =>
    let raw := String.intercalate " " args
    match raw.splitOn "|" with
    | [text, target, date_str] =>
      match pf target with
      | some v =>
        ({ st with goals := st.goals ++
            [{ user_id := uid, goal_text := text, target_value := v,
               target_date := date_str, active := 1 }] }, "Цель сохранена")
      | none => (st, "Ошибка формата: could not convert string to float")
    | _ => (st, "Ошибка формата: unpacking mismatch")

/-- `cmd_freeze`: parse the day count, `INSERT OR REPLACE INTO
users(user_id,frozen_until)` — every other column reverts to its schema
default (`username` NULL, `age` 30, `gender` 'male', `tz_offset` 0) — and
start the `freeze_return` timer (`tid` models the created task). -/
def cmd_freeze (pi : String → Option Int) (st : DB) (ts : TimerSys) (today : Int)
    (uid : Int) (tid : Nat) (args : List String) : DB × TimerSys × String :=
  match args with
  | [] => (st, ts, "Используй: /freeze N")
  | a :: _ =>
    match pi a with
    | none => (st, ts, "Число дней?")
    | some days =>
      let untilDay := today + days
      let newUsers := st.users.filter (fun r => !(r.user_id == uid)) ++
        [{ user_id := uid, username := none, age := 30, gender := "male",
           tz_offset := 0, frozen_until := some untilDay }]
      let st' := { st with users := newUsers }
      let ts' := (start_user_timer ts uid "freeze_return" tid).1
      (st', ts', "Заморожено до " ++ toString untilDay)

/-- Outcome of `requests.get`: a 200 response with parsed JSON body, a
non-200 response, or a raised exception. -/
inductive HttpResult (α : Type) where
  | ok (body : α)
  | notOk
  | exc

/-- `fetch_mi_data`: look up the user's integration row (first match); with no
row return `None`; with provider `'thryve'` perform the single HTTP call;
any other provider returns `None` without a call.  The second component
records the outbound HTTP calls performed, as `(url, authorization)` pairs. -/
def fetch_mi_data {α : Type} (http : String → String → HttpResult α) (st : DB)
    (uid : Int) : Option α × List (String × String) :=
  match st.integrations.find? (fun r => r.user_id == uid) with
  | none => (none, [])
  | some row =>
    if row.provider = "thryve" then
      let url := "https://api.tryrook.io/user/data"
      let auth := "Bearer " ++ row.api_key
      match http url auth with
      | .ok body => (some body, [(url, auth)])
      | _ => (none, [(url, auth)])
    else (none, [])

/-- `SELECT ... FROM users WHERE user_id=?` (first matching row). -/
def usersFind (st : DB) (uid : Int) : Option UserRow :=
  st.users.find? (fun r => r.user_id == uid)

/-- After removing every row matched by `p` and appending a row matched by
`p`, the first row found by `p` is the appended one. -/
theorem find?_filter_not_append {α : Type} (p : α → Bool) (l : List α) (x : α)
    (hx : p x = true) : ((l.filter fun a => !(p a)) ++ [x]).find? p = some x := by
  induction l with
  | nil => simp [hx]
  | cons hd tl ih =>
    by_cases hp : p hd = true
    · rw [List.filter_cons, if_neg (by simp [hp])]
      exact ih
    · have hph : p hd = false := by simpa using hp
      rw [List.filter_cons, if_pos (by simp [hph]), List.cons_append,
        List.find?_cons_of_neg _ (by simp [hph])]
      exact ih

/-- Same situation: the rows matched by `p` after the replacement are exactly
the appended row. -/
theorem filter_filter_not_append {α : Type} (p : α → Bool) (l : List α) (x : α)
    (hx : p x = true) : ((l.filter fun a => !(p a)) ++ [x]).filter p = [x] := by
  rw [List.filter_append]
  have h1 : (l.filter fun a => !(p a)).filter p = [] := by
    induction l with
    | nil => rfl
    | cons hd tl ih =>
      by_cases hp : p hd = true
      · simp [List.filter_cons, hp, ih]
      · simp [List.filter_cons, hp, ih]
  rw [h1]
  simp [hx]

/-- Filtering the key away again after the replacement undoes the append. -/
theorem filter_not_filter_not_append {α : Type} (p : α → Bool) (l : List α) (x : α)
    (hx : p x = true) :
    ((l.filter fun a => !(p a)) ++ [x]).filter (fun a => !(p a)) =
      l.filter fun a => !(p a) := by
  rw [List.filter_append]
  have h2 : [x].filter (fun a => !(p a)) = [] := by simp [hx]
  rw [h2, List.append_nil]
  induction l with
  | nil => rfl
  | cons hd tl ih =>
    by_cases hp : p hd = true
    · simp [List.filter_cons, hp, ih]
    · simp [List.filter_cons, hp, ih]

/-- A sample user row with non-default profile values. -/
def sampleUserRow : UserRow :=
  { user_id := 1, username := some "vo", age := 28, gender := "female",
    tz_offset := 3, frozen_until := none }

/-- A sample integration row with a non-thryve provider. -/
def sampleIntegrationRow : IntegrationRow :=
  { user_id := 1, provider := "rook", api_key := "k" }

/-- A sample database state. -/
def sampleDB : DB :=
  { users := [sampleUserRow],
    steps := [{ user_id := 1, sdate := 10, steps := 5000 }],
    goals := [{ user_id := 1, goal_text := "вес", target_value := 90,
                target_date := "2026-01-01", active := 1 }],
    integrations := [sampleIntegrationRow] }

/-- The empty timer table. -/
def emptyTimers : TimerSys := { tasks := fun _ => [], cancelled := [] }

/-- C5: `cmd_sleep` records nothing: for every parse function, database state
and argument list, the returned state is exactly the input state, even though
on a numeric argument the reply claims the hours were saved.  No logged sleep
value is ever stored, hence none is retrievable. -/
theorem cmd_sleep_persists_nothing (pf : String → Option ℚ) (st : DB) (a : String)
    (rest : List String) (h : ℚ) (hp : pf a = some h) :
    (∀ args : List String, (cmd_sleep pf st args).1 = st) ∧
    (cmd_sleep pf st (a :: rest)).2 =
      "Сон " ++ toString h ++ " ч сохранён (влияет на рекомендации)" := by
  constructor
  · intro args
    cases args with
    | nil => rfl
    | cons b bs =>
      simp only [cmd_sleep]
      cases pf b <;> rfl
  · simp only [cmd_sleep]
    rw [hp]

theorem cmd_sleep_persists_nothing_witness :
    (∀ args : List String,
      (cmd_sleep (fun s => if s = "8" then some 8 else none) sampleDB args).1 = sampleDB) ∧
    (cmd_sleep (fun s => if s = "8" then some 8 else none) sampleDB ["8"]).2 =
      "Сон " ++ toString (8 : ℚ) ++ " ч сохранён (влияет на рекомендации)" :=
  cmd_sleep_persists_nothing (fun s => if s = "8" then some 8 else none) sampleDB "8" [] 8
    (by simp)

/-- C7: `/set_goal` fails atomically: whenever the joined argument string does
not split into exactly three `'|'`-separated fields with a numeric middle
field, the goals table is unchanged, and on the caught exception (non-empty
arguments) the reply is an error string. -/
theorem cmd_set_goal_error_atomic (pf : String → Option ℚ) (st : DB) (uid : Int)
    (args : List String)
    (hbad : ∀ a b c, (String.intercalate " " args).splitOn "|" = [a, b, c] →
      pf b = none) :
    (cmd_set_goal pf st uid args).1.goals = st.goals ∧
    (args ≠ [] → ∃ s, (cmd_set_goal pf st uid args).2 = "Ошибка формата: " ++ s) := by
  cases args with
  | nil => exact ⟨rfl, fun hne => absurd rfl hne⟩
  | cons a as =>
    simp only [cmd_set_goal]
    split
    · rename_i text target date_str hsp
      rw [hbad text target date_str hsp]
      exact ⟨rfl, fun _ => ⟨"could not convert string to float", rfl⟩⟩
    · exact ⟨rfl, fun _ => ⟨"unpacking mismatch", rfl⟩⟩

theorem cmd_set_goal_error_atomic_witness :
    (cmd_set_goal (fun _ => none) sampleDB 1 ["похудеть"]).1.goals = sampleDB.goals ∧
    (["похудеть"] ≠ ([] : List String) →
      ∃ s, (cmd_set_goal (fun _ => none) sampleDB 1 ["похудеть"]).2 =
        "Ошибка формата: " ++ s) :=
  cmd_set_goal_error_atomic (fun _ => none) sampleDB 1 ["похудеть"]
    (fun _ _ _ _ => rfl)

/-- C8: the third-party pull is optional and credential-gated: with no stored
integration row `fetch_mi_data` returns `None` and performs no outbound HTTP
call, and with a stored provider other than `'thryve'` it likewise returns
`None` with no HTTP call. -/
theorem fetch_mi_data_gated {α : Type} (http : String → String → HttpResult α)
    (st : DB) (uid : Int) :
    (st.integrations.find? (fun r => r.user_id == uid) = none →
      fetch_mi_data http st uid = (none, [])) ∧
    (∀ row, st.integrations.find? (fun r => r.user_id == uid) = some row →
      row.provider ≠ "thryve" → fetch_mi_data http st uid = (none, [])) := by
  constructor
  · intro h
    simp only [fetch_mi_data, h]
  · intro row h hp
    simp only [fetch_mi_data, h]
    rw [if_neg hp]

theorem fetch_mi_data_gated_witness :
    fetch_mi_data (fun _ _ => HttpResult.exc (α := Nat)) sampleDB 1 = (none, []) :=
  (fetch_mi_data_gated (fun _ _ => HttpResult.exc (α := Nat)) sampleDB 1).2
    sampleIntegrationRow (by rfl) (by decide)

/-- C9: `/freeze N` on any existing user replaces the whole `users` row via
`INSERT OR REPLACE` keyed on `user_id`: afterwards the user's row carries the
new `frozen_until` and has `username` reset to `NULL` and `age`, `gender`,
`tz_offset` reset to the column defaults 30, `'male'`, 0, discarding the
previously stored values. -/
theorem cmd_freeze_resets_profile (pi : String → Option Int) (st : DB) (ts : TimerSys)
    (today : Int) (uid : Int) (tid : Nat) (a : String) (rest : List String)
    (days : Int) (hp : pi a = some days) (r : UserRow) (_hr : r ∈ st.users)
    (_hid : r.user_id = uid) :
    usersFind (cmd_freeze pi st ts today uid tid (a :: rest)).1 uid =
      some { user_id := uid, username := none, age := 30, gender := "male",
             tz_offset := 0, frozen_until := some (today + days) } := by
  simp only [cmd_freeze, hp, usersFind]
  exact find?_filter_not_append _ _ _ (by simp)

theorem cmd_freeze_resets_profile_witness :
    usersFind (cmd_freeze (fun s => if s = "3" then some 3 else none) sampleDB
      emptyTimers 738000 1 7 ["3"]).1 1 =
      some { user_id := 1, username := none, age := 30, gender := "male",
             tz_offset := 0, frozen_until := some 738003 } :=
  cmd_freeze_resets_profile (fun s => if s = "3" then some 3 else none) sampleDB
    emptyTimers 738000 1 7 "3" [] 3 (by simp) sampleUserRow
    (by simp [sampleDB]) rfl

/-- Two step rows with distinct `(user_id, sdate)` keys. -/
def stepsKeyDistinct (a b : StepsRow) : Prop :=
  ¬(a.user_id = b.user_id ∧ a.sdate = b.sdate)

instance (a b : StepsRow) : Decidable (stepsKeyDistinct a b) := by
  unfold stepsKeyDistinct
  infer_instance

/-- C10: step logging is a keyed upsert with last-write-wins: after logging
`s1` then `s2` for the same `(user, date)` the rows for that key are exactly
one row holding `s2`; logging identical arguments twice equals logging once;
and the pairwise key-distinctness of the `steps` table is preserved, so the
table never accumulates two rows with one `(user_id, sdate)` key. -/
theorem log_steps_upsert (st : DB) (uid s1 s2 d : Int)
    (h : st.steps.Pairwise stepsKeyDistinct) :
    ((log_steps (log_steps st uid s1 d) uid s2 d).steps.filter
        (fun r => r.user_id == uid && r.sdate == d)) =
      [{ user_id := uid, sdate := d, steps := s2 }] ∧
    log_steps (log_steps st uid s1 d) uid s1 d = log_steps st uid s1 d ∧
    (log_steps st uid s1 d).steps.Pairwise stepsKeyDistinct := by
  refine ⟨?_, ?_, ?_⟩
  · exact filter_filter_not_append _ _ _ (by simp)
  · simp only [log_steps]
    rw [filter_not_filter_not_append _ _ _ (by simp)]
  · simp only [log_steps]
    rw [List.pairwise_append]
    refine ⟨h.filter _, List.pairwise_singleton _ _, ?_⟩
    intro x hx y hy
    rw [List.mem_filter] at hx
    rw [List.mem_singleton] at hy
    subst hy
    intro hk
    have hxk : (!(x.user_id == uid && x.sdate == d)) = true := hx.2
    simp only [Bool.not_eq_true', Bool.and_eq_false_iff, beq_eq_false_iff_ne, ne_eq] at hxk
    cases hxk with
    | inl h1 => exact h1 hk.1
    | inr h2 => exact h2 hk.2

theorem log_steps_upsert_witness :
    log_steps (log_steps sampleDB 1 8000 10) 1 8000 10 = log_steps sampleDB 1 8000 10 :=
  (log_steps_upsert sampleDB 1 8000 8000 10 (by simp [sampleDB])).2.1
